import Mathlib

/-
Verification development for the python-tkinter-minesweeper repository.

This file gives a shallow embedding of the solver and board core of
src/minesweeper.py (and the board constructor of src/minesweeper_lib.py)
and proves properties of it.  Python dictionaries indexed by coordinates
are modelled as total functions on the coordinate type (the source only
ever reads keys inside the grid after the bounds filter, except in the
board constructor, where an out-of-bounds key raises KeyError and is
modelled by returning none).  The ambient random source used by calc_prob
is modelled as an explicit finite stream of candidate draws: one draw is
consumed per iteration of the sampling loop, and a run that needs more
randomness than the stream provides, or a draw that random.sample could
not have produced, yields none.  Machine integers are exact in Python, so
counts are Nat and constraint arithmetic (which can go negative) is Int.
-/

set_option maxRecDepth 40000

namespace MS

/-- Grid width, from the source constant SIZE_X. -/
def SIZE_X : Nat := 30

/-- Grid height, from the source constant SIZE_Y. -/
def SIZE_Y : Nat := 16

/-- Number of mines, from the source constant N_MINES. -/
def N_MINES : Nat := 99

/-- Number of accepted samples required by calc_prob, source constant N_SIMS. -/
def N_SIMS : Nat := 2

/-- Cell display state, from the source enum State. -/
inductive State where
  | HIDDEN
  | CLICKED
  | FLAGGED
  | MISCLICKED
deriving DecidableEq

/-- Immutable coordinate pair, from the source class Coord.  Python ints,
so the components are Int: neighbor candidates with negative components
are built and then removed by the bounds filter. -/
structure Coord where
  x : Int
  y : Int
deriving DecidableEq

/-- Action kind, from the source enum ActionType. -/
inductive ActionType where
  | UNKNOWN
  | CLEAR
  | FLAG
deriving DecidableEq

/-- An action request, from the source class Action. -/
structure Action where
  type : ActionType
  coord : Coord
deriving DecidableEq

/-- Per-cell record, from the source class Cell. -/
structure Cell where
  coord : Coord
  is_mine : Bool
  state : State
  n_adj_mines : Nat
deriving DecidableEq

/-- The mutable game object, fields of the source class Minesweeper
(minesweeper.py).  The grid and probs dictionaries become functions. -/
@[ext]
structure Minesweeper where
  grid : Coord → Cell
  probs : Coord → Option Nat
  clicked_count : Nat
  n_mines : Nat
  n_flags : Nat
  lost : Bool

/-- Bounds check applied by the Neighbors iterator:
0 <= x < SIZE_X and 0 <= y < SIZE_Y. -/
def inBounds (c : Coord) : Bool :=
  decide (0 ≤ c.x ∧ c.x < (SIZE_X : Int) ∧ 0 ≤ c.y ∧ c.y < (SIZE_Y : Int))

/-- Iterating a Neighbors object with one extra filter: the bounds filter
runs first, then the added predicate (source class Neighbors). -/
def nfilter (l : List Coord) (p : Coord → Bool) : List Coord :=
  l.filter (fun c => inBounds c && p c)

/-- All grid coordinates in the order of itertools.product(range(SIZE_X),
range(SIZE_Y)): x outer, y inner (source function grid_coords). -/
def grid_coords : List Coord :=
  (List.range SIZE_X).flatMap (fun x => (List.range SIZE_Y).map (fun y => ⟨(x : Int), (y : Int)⟩))

/-- The eight neighbor offsets in the order produced by
itertools.product(range(-1, 2), range(-1, 2)) with (0, 0) removed. -/
def neighbor_offsets : List (Int × Int) :=
  [(-1, -1), (-1, 0), (-1, 1), (0, -1), (0, 1), (1, -1), (1, 0), (1, 1)]

/-- Raw candidate neighbors before the bounds filter (source function
get_neighbors). -/
def get_neighbors (c : Coord) : List Coord :=
  neighbor_offsets.map (fun d => ⟨c.x + d.1, c.y + d.2⟩)

/-- Source function get_variables_constraint: the still hidden neighbors
of a cell, paired with its shown number minus the count of flagged
neighbors.  The difference can be negative on arbitrary states, hence Int. -/
def get_variables_constraint (st : Minesweeper) (coord : Coord) : List Coord × Int :=
  let hidden_vars := nfilter (get_neighbors coord) (fun n => decide ((st.grid n).state = State.HIDDEN))
  let showing_num : Int := ((st.grid coord).n_adj_mines : Int)
  let flagged_mines : Int :=
    ((nfilter (get_neighbors coord) (fun n => decide ((st.grid n).state = State.FLAGGED))).length : Int)
  (hidden_vars, showing_num - flagged_mines)

/-- Source function solve_constraint. -/
def solve_constraint (st : Minesweeper) (coord : Coord) : List Action :=
  let vc := get_variables_constraint st coord
  if vc.2 = 0 then vc.1.map (fun c => ⟨ActionType.CLEAR, c⟩)
  else if vc.2 = (vc.1.length : Int) then vc.1.map (fun c => ⟨ActionType.FLAG, c⟩)
  else []

/-- Source function powerset (the itertools recipe): all subsets of the
input, grouped by size r = 0 .. length.  List.sublistsLen r enumerates the
same r-element subsets as itertools.combinations, in a different order;
solve_pair_of_constraints only inspects the collection through filter,
all and any, so the enumeration order is not observable. -/
def powerset (l : List Coord) : List (List Coord) :=
  (List.range (l.length + 1)).flatMap (fun r => List.sublistsLen r l)

/-- The local variable v of solve_pair_of_constraints:
list(set(vx) | set(vy)).  The Python set union has unspecified order;
List.union keeps each element once, which is all the function observes. -/
def pair_vars (st : Minesweeper) (x y : Coord) : List Coord :=
  ((get_variables_constraint st x).1).union ((get_variables_constraint st y).1)

/-- The acceptance test of solve_pair_of_constraints: a hypothesis s keeps
exactly cx elements of vx and cy elements of vy. -/
def meets_both (st : Minesweeper) (x y : Coord) (s : List Coord) : Bool :=
  decide (((((get_variables_constraint st x).1).filter (fun t => decide (t ∈ s))).length : Int)
      = (get_variables_constraint st x).2)
  && decide (((((get_variables_constraint st y).1).filter (fun t => decide (t ∈ s))).length : Int)
      = (get_variables_constraint st y).2)

/-- The local variable valid of solve_pair_of_constraints. -/
def pair_valid (st : Minesweeper) (x y : Coord) : List (List Coord) :=
  (powerset (pair_vars st x y)).filter (meets_both st x y)

/-- Source function solve_pair_of_constraints. -/
def solve_pair_of_constraints (st : Minesweeper) (x y : Coord) : List Action :=
  (pair_vars st x y).flatMap (fun t =>
    (if (pair_valid st x y).all (fun s => decide (t ∈ s)) then [⟨ActionType.FLAG, t⟩] else [])
    ++ (if !((pair_valid st x y).any (fun s => decide (t ∈ s))) then [⟨ActionType.CLEAR, t⟩] else []))

/-- itertools.combinations(l, 2) in its emission order. -/
def combos2 : List Coord → List (Coord × Coord)
  | [] => []
  | x :: xs => (xs.map (fun y => (x, y))) ++ combos2 xs

/-- Source function solve_variable. -/
def solve_variable (st : Minesweeper) (coord : Coord) : List Action :=
  let constraint_neighbors :=
    nfilter (get_neighbors coord) (fun c => decide ((st.grid c).state = State.CLICKED))
  (combos2 constraint_neighbors).flatMap (fun p => solve_pair_of_constraints st p.1 p.2)

/-- The in-place mutation ms().grid[coord].state = s. -/
def setCellState (st : Minesweeper) (c : Coord) (s : State) : Minesweeper :=
  { st with grid := fun c2 => if c2 = c then { st.grid c2 with state := s } else st.grid c2 }

/-- Source function do (a Lean keyword, hence the name doAction).  Returns
the updated state and the game-over flag; none models the
NotImplementedError raised on an unknown action type. -/
def doAction (st : Minesweeper) (a : Action) : Option (Minesweeper × Bool) :=
  let cell := st.grid a.coord
  if cell.state = State.CLICKED ∨ cell.state = State.FLAGGED then some (st, false)
  else
    match a.type with
    | ActionType.CLEAR =>
      if cell.is_mine then some ({ setCellState st a.coord State.MISCLICKED with lost := true }, true)
      else some ({ setCellState st a.coord State.CLICKED with clicked_count := st.clicked_count + 1 }, false)
    | ActionType.FLAG =>
      if !cell.is_mine then some ({ setCellState st a.coord State.MISCLICKED with lost := true }, true)
      else some ({ setCellState st a.coord State.FLAGGED with n_flags := st.n_flags + 1 }, false)
    | ActionType.UNKNOWN => none

/-- Source function my_append: append unless already present. -/
def my_append (queue : List Coord) (element : Coord) : List Coord :=
  if element ∈ queue then queue else queue ++ [element]

/-- The inner while actions loop of solve.  Python pops from the end of
the actions list, so the pending actions are passed here with the next
action to run first (the caller reverses the solver output before
passing it).  Queue membership checks read the grid after the action has
been applied, as in the source. -/
def drain : Minesweeper → List Action → List Coord → List Coord → Bool →
    Option (Minesweeper × List Coord × List Coord × Bool)
  | st, [], cs, vs, go => some (st, cs, vs, go)
  | st, action :: rest, cs, vs, go =>
    match doAction st action with
    | none => none
    | some (st1, g) =>
      let coord := action.coord
      let cs1 :=
        if action.type = ActionType.CLEAR then
          (nfilter (get_neighbors coord) (fun n => decide ((st1.grid n).state = State.CLICKED))).foldl
            my_append (my_append cs coord)
        else if action.type = ActionType.FLAG then
          (nfilter (get_neighbors coord) (fun n => decide ((st1.grid n).state = State.CLICKED))).foldl
            my_append cs
        else cs
      let vs1 :=
        if action.type = ActionType.CLEAR then
          (nfilter (get_neighbors coord) (fun n => decide ((st1.grid n).state = State.HIDDEN))).foldl
            my_append vs
        else vs
      drain st1 rest cs1 vs1 (go || g)

/-- The outer while loop of solve, with fuel for the outer iteration
count.  Each iteration drains the pending actions, stops when an applied
action ended the game, and otherwise takes one coordinate from the
constraint queue (or, when that is empty, the variable queue) and turns
its deductions into new pending actions. -/
def solveLoop : Nat → Minesweeper → List Action → List Coord → List Coord → Option Minesweeper
  | 0, _, _, _, _ => none
  | f + 1, st, acts, cs, vs =>
    match acts, cs, vs with
    | [], [], [] => some st
    | _, _, _ =>
      match drain st acts cs vs false with
      | none => none
      | some (st1, cs1, vs1, go) =>
        if go then some st1
        else
          match cs1 with
          | c :: csrest => solveLoop f st1 ((solve_constraint st1 c).reverse) csrest vs1
          | [] =>
            match vs1 with
            | v :: vsrest => solveLoop f st1 ((solve_variable st1 v).reverse) [] vsrest
            | [] => solveLoop f st1 [] [] []

/-- The hidden cells of the whole grid (local all_hidden of calc_prob). -/
def all_hidden (st : Minesweeper) : List Coord :=
  nfilter grid_coords (fun c => decide ((st.grid c).state = State.HIDDEN))

/-- The local all_constraints of calc_prob: the constraint of every
clicked cell, keeping only those with at least one variable. -/
def active_constraints (st : Minesweeper) : List (List Coord × Int) :=
  ((nfilter grid_coords (fun c => decide ((st.grid c).state = State.CLICKED))).map
    (get_variables_constraint st)).filter (fun vc => decide (0 < vc.1.length))

/-- The local all_variables of calc_prob: the union of all constraint
variable sets. -/
def constraint_variables (st : Minesweeper) : List Coord :=
  ((active_constraints st).flatMap Prod.fst).dedup

/-- A draw that random.sample(pool, k) could produce: k distinct elements
of the pool. -/
def sampleOk (pool : List Coord) (k : Nat) (draw : List Coord) : Bool :=
  decide (draw.Nodup ∧ draw.length = k ∧ ∀ c ∈ draw, c ∈ pool)

/-- The acceptance test of the sampling loop: the candidate mine set
meets the exact count of every active constraint. -/
def acceptSample (constraints : List (List Coord × Int)) (mines : List Coord) : Bool :=
  constraints.all (fun vc =>
    decide (((mines.filter (fun t => decide (t ∈ vc.1))).length : Int) = vc.2))

/-- The while den < N_SIMS loop of calc_prob.  One draw is taken from the
stream per iteration; accepted draws bump the tallies of their variables
and the denominator.  The stream running dry, or a draw random.sample
could not have made, gives none: the loop did not complete. -/
def calcProbGo (constraints : List (List Coord × Int)) (pool : List Coord) (k : Nat)
    (vars : List Coord) : List (List Coord) → Nat → (Coord → Nat) → Option (Coord → Nat)
  | draws, den, nums =>
    if N_SIMS ≤ den then some nums
    else
      match draws with
      | [] => none
      | draw :: rest =>
        if sampleOk pool k draw then
          let mines := draw.filter (fun c => decide (c ∈ vars))
          if acceptSample constraints mines then
            calcProbGo constraints pool k vars rest (den + 1)
              (fun c => if c ∈ mines then nums c + 1 else nums c)
          else calcProbGo constraints pool k vars rest den nums
        else none

/-- Source function calc_prob.  On completion the probability of every
constraint variable is overwritten with round(100 * tally / den); with
N_SIMS = 2 the quotient 100 * tally / 2 is a whole number, so the Python
round is exact Nat division. -/
def calc_prob (st : Minesweeper) (r : List (List Coord)) : Option Minesweeper :=
  let pool := all_hidden st
  let constraints := active_constraints st
  let vars := constraint_variables st
  match calcProbGo constraints pool (st.n_mines - st.n_flags) vars r 0 (fun _ => 0) with
  | none => none
  | some nums =>
    some { st with probs := fun c => if c ∈ vars then some (100 * nums c / N_SIMS) else st.probs c }

/-- Fuel bound handed to the outer solver loop by solve. -/
def solveFuel : Nat := 1000

/-- Source function solve: early return when the game is already lost,
then the propagation loop, then the win check (which does nothing in the
source), then calc_prob.  The display update is a pure read of the state
and is omitted. -/
def solve (st : Minesweeper) (starting_action : Action) (r : List (List Coord)) :
    Option Minesweeper :=
  if st.lost then some st
  else
    match solveLoop solveFuel st [starting_action] [] [] with
    | none => none
    | some st1 => calc_prob st1 r

/-- Board constructor of src/minesweeper_lib.py (Minesweeper.init with an
explicit mine list).  The Python loop writes is_mine through the grid
dict and raises KeyError on an out-of-bounds coordinate, modelled by
none; no other validation is performed. -/
def minesweeper_init (mines : List Coord) : Option Minesweeper :=
  if mines.all inBounds then
    some
      { grid := fun c =>
          { coord := c
            is_mine := decide (c ∈ mines)
            state := State.HIDDEN
            n_adj_mines := (nfilter (get_neighbors c) (fun n => decide (n ∈ mines))).length }
        probs := fun _ => none
        clicked_count := 0
        n_mines := N_MINES
        n_flags := 0
        lost := false }
  else none

/-- Number of cells of a board carrying a mine. -/
def countMines (st : Minesweeper) : Nat :=
  (grid_coords.filter (fun c => (st.grid c).is_mine)).length

/-- A concrete board state: every cell safe and hidden, except the single
clicked cell at the origin showing zero adjacent mines. -/
def wstate1 : Minesweeper :=
  { grid := fun c =>
      { coord := c
        is_mine := false
        state := if c = ⟨0, 0⟩ then State.CLICKED else State.HIDDEN
        n_adj_mines := 0 }
    probs := fun _ => none
    clicked_count := 1
    n_mines := N_MINES
    n_flags := 0
    lost := false }

/-- A concrete board state with contradictory clues: everything clicked
except the single hidden cell at (0, 1); the clue at (0, 0) shows 0 while
the clue at (0, 2) shows 1, so no mine assignment satisfies both. -/
def wstate10 : Minesweeper :=
  { grid := fun c =>
      { coord := c
        is_mine := false
        state := if c = ⟨0, 1⟩ then State.HIDDEN else State.CLICKED
        n_adj_mines := if c = ⟨0, 2⟩ then 1 else 0 }
    probs := fun _ => none
    clicked_count := 479
    n_mines := N_MINES
    n_flags := 0
    lost := false }

/-- The powerset function enumerates exactly the sublists of its input:
for an input without duplicates these are exactly its subsets. -/
theorem mem_powerset {s l : List Coord} : s ∈ powerset l ↔ s.Sublist l := by
  constructor
  · intro h
    rcases List.mem_flatMap.mp h with ⟨r, _, hs⟩
    exact (List.mem_sublistsLen.mp hs).1
  · intro h
    refine List.mem_flatMap.mpr ⟨s.length, ?_, ?_⟩
    · exact List.mem_range.mpr (Nat.lt_succ_of_le h.length_le)
    · exact List.mem_sublistsLen.mpr ⟨h, rfl⟩

/-- Membership in the output of solve_pair_of_constraints, by action kind. -/
theorem mem_solve_pair (st : Minesweeper) (x y : Coord) (t : Coord) :
    ((⟨ActionType.FLAG, t⟩ : Action) ∈ solve_pair_of_constraints st x y
      ↔ t ∈ pair_vars st x y ∧ ∀ s2 ∈ pair_valid st x y, t ∈ s2)
  ∧ ((⟨ActionType.CLEAR, t⟩ : Action) ∈ solve_pair_of_constraints st x y
      ↔ t ∈ pair_vars st x y ∧ ∀ s2 ∈ pair_valid st x y, t ∉ s2) := by
  constructor
  · constructor
    · intro h
      rcases List.mem_flatMap.mp h with ⟨u, hu, hmem⟩
      rcases List.mem_append.mp hmem with h1 | h1
      · split at h1
        case isTrue hall =>
          rcases List.mem_singleton.mp h1 with h2
          cases h2
          refine ⟨hu, fun s2 hs2 => ?_⟩
          have := List.all_eq_true.mp hall s2 hs2
          exact of_decide_eq_true this
        case isFalse => exact absurd h1 (List.not_mem_nil _)
      · split at h1
        · rcases List.mem_singleton.mp h1 with h2
          cases h2
        · exact absurd h1 (List.not_mem_nil _)
    · rintro ⟨hu, hall⟩
      refine List.mem_flatMap.mpr ⟨t, hu, List.mem_append.mpr (Or.inl ?_)⟩
      have : (pair_valid st x y).all (fun s2 => decide (t ∈ s2)) = true :=
        List.all_eq_true.mpr fun s2 hs2 => decide_eq_true (hall s2 hs2)
      rw [this]
      exact List.mem_singleton.mpr rfl
  · constructor
    · intro h
      rcases List.mem_flatMap.mp h with ⟨u, hu, hmem⟩
      rcases List.mem_append.mp hmem with h1 | h1
      · split at h1
        · rcases List.mem_singleton.mp h1 with h2
          cases h2
        · exact absurd h1 (List.not_mem_nil _)
      · split at h1
        case isTrue hnone =>
          rcases List.mem_singleton.mp h1 with h2
          cases h2
          refine ⟨hu, fun s2 hs2 hmem2 => ?_⟩
          have hfalse : (pair_valid st x y).any (fun s2 => decide (t ∈ s2)) = false := by
            revert hnone
            cases (pair_valid st x y).any (fun s2 => decide (t ∈ s2)) <;> simp
          have : ¬∃ s2 ∈ pair_valid st x y, decide (t ∈ s2) = true := by
            intro hex
            rw [List.any_eq_true.mpr hex] at hfalse
            exact Bool.noConfusion hfalse
          exact this ⟨s2, hs2, decide_eq_true hmem2⟩
        case isFalse => exact absurd h1 (List.not_mem_nil _)
    · rintro ⟨hu, hnone⟩
      refine List.mem_flatMap.mpr ⟨t, hu, List.mem_append.mpr (Or.inr ?_)⟩
      have : (pair_valid st x y).any (fun s2 => decide (t ∈ s2)) = false := by
        cases hany : (pair_valid st x y).any (fun s2 => decide (t ∈ s2))
        · rfl
        · rcases List.any_eq_true.mp hany with ⟨s2, hs2, hdec⟩
          exact absurd (of_decide_eq_true hdec) (hnone s2 hs2)
      rw [this]
      exact List.mem_singleton.mpr rfl

/-- C1: for every coordinate, with constraint (variables, k) computed by
get_variables_constraint (variables the hidden neighbors, k the shown
number minus the flagged neighbor count): when k is zero solve_constraint
emits a Clear action for every variable, when k equals the number of
variables it emits a Flag action for every variable, and in every other
case it emits no actions. -/
theorem solve_constraint_single_clue_rule (st : Minesweeper) (coord : Coord) :
    ((get_variables_constraint st coord).2 = 0 →
      solve_constraint st coord
        = ((get_variables_constraint st coord).1).map (fun c => ⟨ActionType.CLEAR, c⟩))
  ∧ ((get_variables_constraint st coord).2 = (((get_variables_constraint st coord).1).length : Int) →
      solve_constraint st coord
        = ((get_variables_constraint st coord).1).map (fun c => ⟨ActionType.FLAG, c⟩))
  ∧ ((get_variables_constraint st coord).2 ≠ 0 →
      (get_variables_constraint st coord).2 ≠ (((get_variables_constraint st coord).1).length : Int) →
      solve_constraint st coord = []) := by
  refine ⟨fun h => ?_, fun h => ?_, fun h h2 => ?_⟩
  · simp [solve_constraint, h]
  · by_cases h0 : (get_variables_constraint st coord).2 = 0
    · have hlen : (((get_variables_constraint st coord).1).length : Int) = 0 := by
        rw [← h, h0]
      have hnil : (get_variables_constraint st coord).1 = [] :=
        List.length_eq_zero.mp (by exact_mod_cast hlen)
      simp [solve_constraint, h0, hnil]
    · simp only [solve_constraint]
      rw [if_neg h0, if_pos h]
  · simp [solve_constraint, h, h2]

/-- Witness for C1 at a concrete input: the clue at the origin of wstate1
has constraint value zero and three hidden neighbors, and solve_constraint
emits a Clear action for each of them. -/
theorem solve_constraint_single_clue_rule_witness :
    (get_variables_constraint wstate1 ⟨0, 0⟩).2 = 0
    ∧ solve_constraint wstate1 ⟨0, 0⟩
        = [⟨ActionType.CLEAR, ⟨0, 1⟩⟩, ⟨ActionType.CLEAR, ⟨1, 0⟩⟩, ⟨ActionType.CLEAR, ⟨1, 1⟩⟩] :=
  ⟨by decide,
    ((solve_constraint_single_clue_rule wstate1 ⟨0, 0⟩).1 (by decide)).trans (by decide)⟩

/-- C2: for every pair of clue coordinates, solve_pair_of_constraints
keeps exactly those subsets of the union of the two variable lists whose
intersection with the first variable list has size equal to the first
count and likewise for the second, then emits a Flag action for exactly
the variables lying in every surviving subset and a Clear action for
exactly the variables lying in no surviving subset. -/
theorem solve_pair_characterization (st : Minesweeper) (x y : Coord) (t : Coord)
    (s : List Coord) :
    (t ∈ pair_vars st x y
      ↔ t ∈ (get_variables_constraint st x).1 ∨ t ∈ (get_variables_constraint st y).1)
  ∧ (s ∈ pair_valid st x y
      ↔ s.Sublist (pair_vars st x y)
        ∧ (((((get_variables_constraint st x).1).filter (fun u => decide (u ∈ s))).length : Int)
            = (get_variables_constraint st x).2)
        ∧ (((((get_variables_constraint st y).1).filter (fun u => decide (u ∈ s))).length : Int)
            = (get_variables_constraint st y).2))
  ∧ ((⟨ActionType.FLAG, t⟩ : Action) ∈ solve_pair_of_constraints st x y
      ↔ t ∈ pair_vars st x y ∧ ∀ s2 ∈ pair_valid st x y, t ∈ s2)
  ∧ ((⟨ActionType.CLEAR, t⟩ : Action) ∈ solve_pair_of_constraints st x y
      ↔ t ∈ pair_vars st x y ∧ ∀ s2 ∈ pair_valid st x y, t ∉ s2) := by
  refine ⟨?_, ?_, (mem_solve_pair st x y t).1, (mem_solve_pair st x y t).2⟩
  · exact List.mem_union_iff
  · constructor
    · intro h
      rcases List.mem_filter.mp h with ⟨hmem, hok⟩
      rcases Bool.and_eq_true _ _ ▸ hok with ⟨h1, h2⟩
      exact ⟨mem_powerset.mp hmem, of_decide_eq_true h1, of_decide_eq_true h2⟩
    · rintro ⟨hsub, h1, h2⟩
      exact List.mem_filter.mpr ⟨mem_powerset.mpr hsub,
        (Bool.and_eq_true _ _).symm ▸ ⟨decide_eq_true h1, decide_eq_true h2⟩⟩

/-- Witness for C2 at a concrete input: in wstate10 the clues at (0, 0)
and (0, 2) share the single variable (0, 1); the empty subset fails the
second count, the singleton fails the first, so no subset survives, and
both a Flag and a Clear action are emitted for the shared variable. -/
theorem solve_pair_characterization_witness :
    pair_vars wstate10 ⟨0, 0⟩ ⟨0, 2⟩ = [⟨0, 1⟩]
    ∧ pair_valid wstate10 ⟨0, 0⟩ ⟨0, 2⟩ = []
    ∧ ((⟨ActionType.FLAG, ⟨0, 1⟩⟩ : Action) ∈ solve_pair_of_constraints wstate10 ⟨0, 0⟩ ⟨0, 2⟩
        ↔ (⟨0, 1⟩ : Coord) ∈ pair_vars wstate10 ⟨0, 0⟩ ⟨0, 2⟩
          ∧ ∀ s2 ∈ pair_valid wstate10 ⟨0, 0⟩ ⟨0, 2⟩, (⟨0, 1⟩ : Coord) ∈ s2) :=
  ⟨by decide, by decide,
    (solve_pair_characterization wstate10 ⟨0, 0⟩ ⟨0, 2⟩ ⟨0, 1⟩ []).2.2.1⟩

/-- C10: when no mine-assignment hypothesis survives the filtering, the
universal condition and the negated existential condition both hold
vacuously, so solve_pair_of_constraints emits both a Flag and a Clear
action for every variable of the union instead of reporting the
contradiction. -/
theorem solve_pair_contradiction (st : Minesweeper) (x y : Coord)
    (h : pair_valid st x y = []) :
    solve_pair_of_constraints st x y
      = (pair_vars st x y).flatMap
          (fun t => [⟨ActionType.FLAG, t⟩, ⟨ActionType.CLEAR, t⟩]) := by
  unfold solve_pair_of_constraints
  rw [h]
  simp

/-- Witness for C10 at a concrete input: the contradictory clue pair of
wstate10 has no surviving hypothesis, and the single shared variable
receives both a Flag and a Clear action. -/
theorem solve_pair_contradiction_witness :
    pair_valid wstate10 ⟨0, 0⟩ ⟨0, 2⟩ = []
    ∧ solve_pair_of_constraints wstate10 ⟨0, 0⟩ ⟨0, 2⟩
        = [⟨ActionType.FLAG, ⟨0, 1⟩⟩, ⟨ActionType.CLEAR, ⟨0, 1⟩⟩] :=
  ⟨by decide,
    (solve_pair_contradiction wstate10 ⟨0, 0⟩ ⟨0, 2⟩ (by decide)).trans (by decide)⟩

/-- Reading back the written cell of setCellState. -/
theorem setCellState_grid_self (st : Minesweeper) (c : Coord) (s : State) :
    (setCellState st c s).grid c = { st.grid c with state := s } := by
  simp [setCellState]

/-- Reading any other cell of setCellState. -/
theorem setCellState_grid_other (st : Minesweeper) (c c2 : Coord) (s : State) (h : c2 ≠ c) :
    (setCellState st c s).grid c2 = st.grid c2 := by
  simp [setCellState, h]

/-- C3: behavior of the apply operation.  An action on an already clicked
or flagged cell is a no-op with a non-game-ending return; a Clear of a
mine marks the cell misclicked, sets lost and reports game over; a Clear
of a non-mine clicks the cell and bumps clicked_count; a Flag of a
non-mine marks the cell misclicked, sets lost and reports game over; a
Flag of a mine flags the cell and bumps n_flags.  In every non-trivial
case the target cell changes only its state, every other cell keeps its
record, and every field not named keeps its value. -/
theorem doAction_semantics (st : Minesweeper) (c : Coord) :
    (∀ ty : ActionType,
      ((st.grid c).state = State.CLICKED ∨ (st.grid c).state = State.FLAGGED) →
      doAction st ⟨ty, c⟩ = some (st, false))
  ∧ (¬((st.grid c).state = State.CLICKED ∨ (st.grid c).state = State.FLAGGED) →
      (st.grid c).is_mine = true →
      ∃ st1, doAction st ⟨ActionType.CLEAR, c⟩ = some (st1, true)
        ∧ st1.grid c = { st.grid c with state := State.MISCLICKED }
        ∧ (∀ c2, c2 ≠ c → st1.grid c2 = st.grid c2)
        ∧ st1.probs = st.probs ∧ st1.clicked_count = st.clicked_count
        ∧ st1.n_mines = st.n_mines ∧ st1.n_flags = st.n_flags ∧ st1.lost = true)
  ∧ (¬((st.grid c).state = State.CLICKED ∨ (st.grid c).state = State.FLAGGED) →
      (st.grid c).is_mine = false →
      ∃ st1, doAction st ⟨ActionType.CLEAR, c⟩ = some (st1, false)
        ∧ st1.grid c = { st.grid c with state := State.CLICKED }
        ∧ (∀ c2, c2 ≠ c → st1.grid c2 = st.grid c2)
        ∧ st1.probs = st.probs ∧ st1.clicked_count = st.clicked_count + 1
        ∧ st1.n_mines = st.n_mines ∧ st1.n_flags = st.n_flags ∧ st1.lost = st.lost)
  ∧ (¬((st.grid c).state = State.CLICKED ∨ (st.grid c).state = State.FLAGGED) →
      (st.grid c).is_mine = false →
      ∃ st1, doAction st ⟨ActionType.FLAG, c⟩ = some (st1, true)
        ∧ st1.grid c = { st.grid c with state := State.MISCLICKED }
        ∧ (∀ c2, c2 ≠ c → st1.grid c2 = st.grid c2)
        ∧ st1.probs = st.probs ∧ st1.clicked_count = st.clicked_count
        ∧ st1.n_mines = st.n_mines ∧ st1.n_flags = st.n_flags ∧ st1.lost = true)
  ∧ (¬((st.grid c).state = State.CLICKED ∨ (st.grid c).state = State.FLAGGED) →
      (st.grid c).is_mine = true →
      ∃ st1, doAction st ⟨ActionType.FLAG, c⟩ = some (st1, false)
        ∧ st1.grid c = { st.grid c with state := State.FLAGGED }
        ∧ (∀ c2, c2 ≠ c → st1.grid c2 = st.grid c2)
        ∧ st1.probs = st.probs ∧ st1.clicked_count = st.clicked_count
        ∧ st1.n_mines = st.n_mines ∧ st1.n_flags = st.n_flags + 1 ∧ st1.lost = st.lost) := by
  refine ⟨fun ty h => ?_, fun h hm => ?_, fun h hm => ?_, fun h hm => ?_, fun h hm => ?_⟩
  · simp [doAction, h]
  · refine ⟨{ setCellState st c State.MISCLICKED with lost := true }, ?_,
      setCellState_grid_self st c _, fun c2 hc2 => setCellState_grid_other st c c2 _ hc2,
      rfl, rfl, rfl, rfl, rfl⟩
    simp [doAction, h, hm]
  · refine ⟨{ setCellState st c State.CLICKED with clicked_count := st.clicked_count + 1 }, ?_,
      setCellState_grid_self st c _, fun c2 hc2 => setCellState_grid_other st c c2 _ hc2,
      rfl, rfl, rfl, rfl, rfl⟩
    simp [doAction, h, hm]
  · refine ⟨{ setCellState st c State.MISCLICKED with lost := true }, ?_,
      setCellState_grid_self st c _, fun c2 hc2 => setCellState_grid_other st c c2 _ hc2,
      rfl, rfl, rfl, rfl, rfl⟩
    simp [doAction, h, hm]
  · refine ⟨{ setCellState st c State.FLAGGED with n_flags := st.n_flags + 1 }, ?_,
      setCellState_grid_self st c _, fun c2 hc2 => setCellState_grid_other st c c2 _ hc2,
      rfl, rfl, rfl, rfl, rfl⟩
    simp [doAction, h, hm]

/-- Witness for C3 at a concrete input: the clicked origin cell of
wstate1 makes any action a no-op. -/
theorem doAction_semantics_witness :
    ((wstate1.grid ⟨0, 0⟩).state = State.CLICKED ∨ (wstate1.grid ⟨0, 0⟩).state = State.FLAGGED)
    ∧ doAction wstate1 ⟨ActionType.FLAG, ⟨0, 0⟩⟩ = some (wstate1, false) :=
  ⟨Or.inl (by decide), (doAction_semantics wstate1 ⟨0, 0⟩).1 ActionType.FLAG (Or.inl (by decide))⟩

/-- C7: applying the same Clear or Flag action twice yields exactly the
board state reached after applying it once; the second application leaves
the state fixed. -/
theorem doAction_idempotent (st : Minesweeper) (c : Coord) (ty : ActionType)
    (hty : ty ≠ ActionType.UNKNOWN) :
    ∃ s1 r1 r2, doAction st ⟨ty, c⟩ = some (s1, r1) ∧ doAction s1 ⟨ty, c⟩ = some (s1, r2) := by
  cases ty with
  | UNKNOWN => exact absurd rfl hty
  | CLEAR =>
    by_cases hs : (st.grid c).state = State.CLICKED ∨ (st.grid c).state = State.FLAGGED
    · exact ⟨st, false, false, (doAction_semantics st c).1 _ hs, (doAction_semantics st c).1 _ hs⟩
    · by_cases hm : (st.grid c).is_mine
      · obtain ⟨s1, hdo, hcell, hother, hprobs, hcc, hnm, hnf, hlost⟩ :=
          (doAction_semantics st c).2.1 hs hm
        have hstate1 : (s1.grid c).state = State.MISCLICKED := by rw [hcell]
        have hmine1 : (s1.grid c).is_mine = true := by rw [hcell]; exact hm
        have hs1 : ¬((s1.grid c).state = State.CLICKED ∨ (s1.grid c).state = State.FLAGGED) := by
          rw [hstate1]; simp
        obtain ⟨s2, hdo2, hcell2, hother2, hprobs2, hcc2, hnm2, hnf2, hlost2⟩ :=
          (doAction_semantics s1 c).2.1 hs1 hmine1
        have heq : s2 = s1 := by
          have hgrid : s2.grid = s1.grid := by
            funext c2
            by_cases h2 : c2 = c
            · subst h2
              rw [hcell2, hcell]
            · exact hother2 c2 h2
          exact Minesweeper.ext hgrid hprobs2 hcc2 hnm2 hnf2 (hlost2.trans hlost.symm)
        exact ⟨s1, true, true, hdo, heq ▸ hdo2⟩
      · obtain ⟨s1, hdo, hcell, _, _, _, _, _, _⟩ :=
          (doAction_semantics st c).2.2.1 hs (Bool.not_eq_true _ ▸ hm)
        have hstate1 : (s1.grid c).state = State.CLICKED := by rw [hcell]
        exact ⟨s1, false, false, hdo, (doAction_semantics s1 c).1 _ (Or.inl hstate1)⟩
  | FLAG =>
    by_cases hs : (st.grid c).state = State.CLICKED ∨ (st.grid c).state = State.FLAGGED
    · exact ⟨st, false, false, (doAction_semantics st c).1 _ hs, (doAction_semantics st c).1 _ hs⟩
    · by_cases hm : (st.grid c).is_mine
      · obtain ⟨s1, hdo, hcell, _, _, _, _, _, _⟩ :=
          (doAction_semantics st c).2.2.2.2 hs hm
        have hstate1 : (s1.grid c).state = State.FLAGGED := by rw [hcell]
        exact ⟨s1, false, false, hdo, (doAction_semantics s1 c).1 _ (Or.inr hstate1)⟩
      · obtain ⟨s1, hdo, hcell, hother, hprobs, hcc, hnm, hnf, hlost⟩ :=
          (doAction_semantics st c).2.2.2.1 hs (Bool.not_eq_true _ ▸ hm)
        have hstate1 : (s1.grid c).state = State.MISCLICKED := by rw [hcell]
        have hmine1 : (s1.grid c).is_mine = false := by
          rw [hcell]
          exact Bool.not_eq_true _ ▸ hm
        have hs1 : ¬((s1.grid c).state = State.CLICKED ∨ (s1.grid c).state = State.FLAGGED) := by
          rw [hstate1]; simp
        obtain ⟨s2, hdo2, hcell2, hother2, hprobs2, hcc2, hnm2, hnf2, hlost2⟩ :=
          (doAction_semantics s1 c).2.2.2.1 hs1 hmine1
        have heq : s2 = s1 := by
          have hgrid : s2.grid = s1.grid := by
            funext c2
            by_cases h2 : c2 = c
            · subst h2
              rw [hcell2, hcell]
            · exact hother2 c2 h2
          exact Minesweeper.ext hgrid hprobs2 hcc2 hnm2 hnf2 (hlost2.trans hlost.symm)
        exact ⟨s1, true, true, hdo, heq ▸ hdo2⟩

/-- Witness for C7 at a concrete input: clearing the hidden safe cell at
(5, 5) of wstate1 twice reproduces the state reached after one clear. -/
theorem doAction_idempotent_witness :
    (ActionType.CLEAR ≠ ActionType.UNKNOWN)
    ∧ ∃ s1 r1 r2, doAction wstate1 ⟨ActionType.CLEAR, ⟨5, 5⟩⟩ = some (s1, r1)
        ∧ doAction s1 ⟨ActionType.CLEAR, ⟨5, 5⟩⟩ = some (s1, r2) :=
  ⟨by decide, doAction_idempotent wstate1 ⟨5, 5⟩ ActionType.CLEAR (by decide)⟩

/-- A board state whose single clue is unsatisfiable: the clicked origin
shows 5 adjacent mines but has only three neighbors, so no candidate mine
set can meet the constraint and the sampling loop can never accept. -/
def badState : Minesweeper :=
  { grid := fun c =>
      { coord := c
        is_mine := false
        state := if c = ⟨0, 0⟩ then State.CLICKED else State.HIDDEN
        n_adj_mines := 5 }
    probs := fun _ => none
    clicked_count := 1
    n_mines := N_MINES
    n_flags := 0
    lost := false }

/-- No duplicate-free candidate mine set meets the unsatisfiable clue of
badState: at most three of its cells can lie among the three variables. -/
theorem badState_reject (mines : List Coord) (hnd : mines.Nodup) :
    acceptSample (active_constraints badState) mines = false := by
  have hconstr : active_constraints badState = [([⟨0, 1⟩, ⟨1, 0⟩, ⟨1, 1⟩], 5)] := by decide
  rw [hconstr]
  unfold acceptSample
  simp only [List.all_cons, List.all_nil, Bool.and_true]
  apply decide_eq_false
  intro habs
  have hsub : (mines.filter (fun t => decide (t ∈ ([⟨0, 1⟩, ⟨1, 0⟩, ⟨1, 1⟩] : List Coord))))
      ⊆ [⟨0, 1⟩, ⟨1, 0⟩, ⟨1, 1⟩] := by
    intro a ha
    exact of_decide_eq_true (List.mem_filter.mp ha).2
  have hnd2 : (mines.filter (fun t =>
      decide (t ∈ ([⟨0, 1⟩, ⟨1, 0⟩, ⟨1, 1⟩] : List Coord)))).Nodup := hnd.filter _
  have hcard : (mines.filter (fun t =>
      decide (t ∈ ([⟨0, 1⟩, ⟨1, 0⟩, ⟨1, 1⟩] : List Coord)))).length ≤ 3 := by
    have h1 := List.toFinset_card_of_nodup hnd2
    have h2 : (mines.filter (fun t =>
        decide (t ∈ ([⟨0, 1⟩, ⟨1, 0⟩, ⟨1, 1⟩] : List Coord)))).toFinset
        ⊆ ([⟨0, 1⟩, ⟨1, 0⟩, ⟨1, 1⟩] : List Coord).toFinset := by
      intro a ha
      exact List.mem_toFinset.mpr (hsub (List.mem_toFinset.mp ha))
    have h3 := Finset.card_le_card h2
    have h4 := List.toFinset_card_le ([⟨0, 1⟩, ⟨1, 0⟩, ⟨1, 1⟩] : List Coord)
    have h5 : ([⟨0, 1⟩, ⟨1, 0⟩, ⟨1, 1⟩] : List Coord).length = 3 := rfl
    omega
  have hlen : (mines.filter (fun t =>
      decide (t ∈ ([⟨0, 1⟩, ⟨1, 0⟩, ⟨1, 1⟩] : List Coord)))).length = 5 := by
    exact_mod_cast habs
  omega

/-- On badState the sampling loop consumes every draw without ever
accepting, for any stream of draws and any starting denominator short of
the target. -/
theorem calcProbGo_badState (draws : List (List Coord)) :
    ∀ (den : Nat) (nums : Coord → Nat), den < N_SIMS →
      calcProbGo (active_constraints badState) (all_hidden badState)
        (badState.n_mines - badState.n_flags) (constraint_variables badState)
        draws den nums = none := by
  induction draws with
  | nil =>
    intro den nums hden
    simp only [calcProbGo]
    rw [if_neg (by omega)]
  | cons d rest ih =>
    intro den nums hden
    simp only [calcProbGo]
    rw [if_neg (by omega)]
    by_cases hok : sampleOk (all_hidden badState)
        (badState.n_mines - badState.n_flags) d = true
    · rw [if_pos hok]
      have hnd : d.Nodup := (of_decide_eq_true hok).1
      have hrej : acceptSample (active_constraints badState)
          (d.filter (fun c => decide (c ∈ constraint_variables badState))) = false :=
        badState_reject _ (hnd.filter _)
      rw [hrej]
      simp only [Bool.false_eq_true, if_false]
      exact ih den nums hden
    · rw [if_neg hok]

/-- C5: calc_prob on the unsatisfiable board never completes, whatever
finite amount of randomness it is given: the while loop of the source has
no iteration cap and only exits once N_SIMS samples are accepted, so with
an unsatisfiable active constraint it runs forever instead of degrading
to a no-probability-data result. -/
theorem calc_prob_no_iteration_cap (r : List (List Coord)) :
    calc_prob badState r = none := by
  simp only [calc_prob]
  rw [calcProbGo_badState r 0 (fun _ => 0) (by norm_num [N_SIMS])]

/-- C6 (amended): board construction from an explicit mine list performs
no validation of the mine count: it fails (with KeyError, not a dedicated
layout error) exactly when some supplied coordinate is out of bounds, and
on success the configured mine count is N_MINES no matter how many mines
were supplied. -/
theorem minesweeper_init_no_validation (mines : List Coord) :
    ((minesweeper_init mines).isSome = true ↔ mines.all inBounds = true)
    ∧ (∀ b, minesweeper_init mines = some b → b.n_mines = N_MINES) := by
  constructor
  · unfold minesweeper_init
    split <;> simp_all
  · intro b hb
    unfold minesweeper_init at hb
    split at hb
    · cases hb
      rfl
    · cases hb

/-- Counterexample for C6: supplying an empty mine list (size 0, not the
configured 99) is silently accepted; the produced board carries zero
actual mines while still reporting a configured count of 99. -/
theorem minesweeper_init_accepts_size_mismatch :
    (minesweeper_init []).map (fun b => (b.n_mines, countMines b)) = some (N_MINES, 0) := by
  decide

/-- A board constructed from the empty mine list. -/
def b6 : Minesweeper := (minesweeper_init []).getD wstate1

/-- Witness for C6 (amended) at a concrete input: construction from the
empty mine list succeeds and reports the configured count N_MINES. -/
theorem minesweeper_init_no_validation_witness :
    minesweeper_init [] = some b6 ∧ b6.n_mines = N_MINES :=
  ⟨rfl, (minesweeper_init_no_validation []).2 b6 rfl⟩

/-- C8 (amended): the only terminal state of the game loop is lost —
solve returns the board untouched when lost is set.  There is no Won
state: when every non-mine cell is revealed the win check of the source
does nothing and solve still processes the submitted action. -/
theorem solve_noop_when_lost (st : Minesweeper) (a : Action) (r : List (List Coord))
    (h : st.lost = true) : solve st a r = some st := by
  simp [solve, h]

/-- A lost board for the C8 witness. -/
def wstateLost : Minesweeper := { wstate1 with lost := true }

/-- Witness for C8 (amended) at a concrete input: solve on a lost board
returns it unchanged. -/
theorem solve_noop_when_lost_witness :
    wstateLost.lost = true
    ∧ solve wstateLost ⟨ActionType.CLEAR, ⟨0, 0⟩⟩ [] = some wstateLost :=
  ⟨rfl, solve_noop_when_lost wstateLost ⟨ActionType.CLEAR, ⟨0, 0⟩⟩ [] rfl⟩

/-- A rectangular block of 95 flagged mines far from the action of the
endgame scenarios below: columns 20 to 28 over rows 0 to 9, plus column
29 over rows 0 to 4. -/
def flaggedRegion (c : Coord) : Bool :=
  decide ((20 ≤ c.x ∧ c.x ≤ 28 ∧ 0 ≤ c.y ∧ c.y ≤ 9) ∨ (c.x = 29 ∧ 0 ≤ c.y ∧ c.y ≤ 4))

/-- The four mines of the won-position scenario that are still hidden. -/
def hiddenMines8 : List Coord := [⟨10, 10⟩, ⟨14, 10⟩, ⟨10, 14⟩, ⟨14, 14⟩]

/-- Mine predicate of the won-position scenario: the flagged block plus
four isolated hidden mines, 99 in total. -/
def isMine8 (c : Coord) : Bool := flaggedRegion c || decide (c ∈ hiddenMines8)

/-- A consistent board in the winning position: all 381 non-mine cells
are clicked (clicked_count equals total cells minus N_MINES), 95 mines
are flagged, four mines are still hidden, every adjacency count honest,
and the game is not lost. -/
def wstate8 : Minesweeper :=
  { grid := fun c =>
      { coord := c
        is_mine := isMine8 c
        state :=
          if isMine8 c then (if flaggedRegion c then State.FLAGGED else State.HIDDEN)
          else State.CLICKED
        n_adj_mines := (nfilter (get_neighbors c) isMine8).length }
    probs := fun _ => none
    clicked_count := SIZE_X * SIZE_Y - N_MINES
    n_mines := N_MINES
    n_flags := 95
    lost := false }

/-- The single accepting draw of the won-position scenario: exactly the
three mines still hidden after the submitted flag. -/
def d8 : List Coord := [⟨14, 10⟩, ⟨10, 14⟩, ⟨14, 14⟩]

/-- Counterexample for C8: in the winning position (every non-mine cell
revealed, game not lost) solve is not a no-op — submitting a flag on a
hidden mine is processed, the cell becomes flagged, the flag counter
rises to 96, and the estimator fills in probabilities. -/
theorem solve_not_noop_when_won :
    wstate8.clicked_count = SIZE_X * SIZE_Y - N_MINES
    ∧ wstate8.lost = false
    ∧ (wstate8.grid ⟨10, 10⟩).state = State.HIDDEN
    ∧ (solve wstate8 ⟨ActionType.FLAG, ⟨10, 10⟩⟩ [d8, d8]).map
        (fun s => (s.n_flags, (s.grid ⟨10, 10⟩).state, s.probs ⟨14, 10⟩))
      = some (96, State.FLAGGED, some 100) := by
  refine ⟨rfl, rfl, by decide, by decide⟩

/-- calc_prob changes only the probability map: the grid, the counters
and the lost flag of a completed run are those of the input state. -/
theorem calc_prob_components (st : Minesweeper) (r : List (List Coord)) (t : Minesweeper)
    (h : calc_prob st r = some t) :
    t.grid = st.grid ∧ t.clicked_count = st.clicked_count ∧ t.n_mines = st.n_mines
    ∧ t.n_flags = st.n_flags ∧ t.lost = st.lost := by
  simp only [calc_prob] at h
  cases hgo : calcProbGo (active_constraints st) (all_hidden st) (st.n_mines - st.n_flags)
      (constraint_variables st) r 0 (fun _ => 0) with
  | none => rw [hgo] at h; cases h
  | some nums =>
    rw [hgo] at h
    cases h
    exact ⟨rfl, rfl, rfl, rfl, rfl⟩

/-- C9 (amended): solve is a pure function of the board, the action and
the stream of random draws, and the draws can influence nothing but the
probability map — two completed runs from the same board and action, with
possibly different randomness, agree on every cell, every counter and the
lost flag. -/
theorem solve_deterministic_modulo_probs (st : Minesweeper) (a : Action)
    (r1 r2 : List (List Coord)) (t1 t2 : Minesweeper)
    (h1 : solve st a r1 = some t1) (h2 : solve st a r2 = some t2) :
    t1.grid = t2.grid ∧ t1.clicked_count = t2.clicked_count
    ∧ t1.n_mines = t2.n_mines ∧ t1.n_flags = t2.n_flags ∧ t1.lost = t2.lost := by
  unfold solve at h1 h2
  by_cases hl : st.lost
  · rw [if_pos hl] at h1 h2
    cases h1
    cases h2
    exact ⟨rfl, rfl, rfl, rfl, rfl⟩
  · rw [if_neg hl] at h1 h2
    cases hloop : solveLoop solveFuel st [a] [] [] with
    | none =>
      rw [hloop] at h1
      cases h1
    | some s1 =>
      rw [hloop] at h1 h2
      obtain ⟨hg1, hc1, hm1, hf1, hl1⟩ := calc_prob_components s1 r1 t1 h1
      obtain ⟨hg2, hc2, hm2, hf2, hl2⟩ := calc_prob_components s1 r2 t2 h2
      exact ⟨hg1.trans hg2.symm, hc1.trans hc2.symm, hm1.trans hm2.symm,
        hf1.trans hf2.symm, hl1.trans hl2.symm⟩

/-- The three mines of the determinism scenario that are hidden and far
from the single clue. -/
def hiddenMines9 : List Coord := [⟨10, 10⟩, ⟨10, 12⟩, ⟨12, 12⟩]

/-- Mine predicate of the determinism scenario: the flagged block, the
mine at the origin next to the clue, and three far hidden mines. -/
def isMine9 (c : Coord) : Bool :=
  flaggedRegion c || decide (c = ⟨0, 0⟩) || decide (c ∈ hiddenMines9)

/-- A consistent board with a single clicked clue at (1, 1) showing 1:
its eight neighbors are hidden and exactly one of them, the origin, is a
mine.  95 mines are flagged, the rest of the board is hidden. -/
def wstate9 : Minesweeper :=
  { grid := fun c =>
      { coord := c
        is_mine := isMine9 c
        state :=
          if c = ⟨1, 1⟩ then State.CLICKED
          else if flaggedRegion c then State.FLAGGED else State.HIDDEN
        n_adj_mines := (nfilter (get_neighbors c) isMine9).length }
    probs := fun _ => none
    clicked_count := 1
    n_mines := N_MINES
    n_flags := 95
    lost := false }

/-- A draw putting the mine of the clue at the origin. -/
def d9a : List Coord := [⟨0, 0⟩, ⟨10, 12⟩, ⟨12, 12⟩]

/-- A draw putting the mine of the clue at (1, 0) instead. -/
def d9b : List Coord := [⟨1, 0⟩, ⟨10, 12⟩, ⟨12, 12⟩]

/-- Counterexample for C9: the same board and the same submitted action,
run with two random streams that rejection sampling both accepts, emit
different probability maps — the origin is reported 100 in one run and 0
in the other, so independent runs are not bit-identical. -/
theorem solve_runs_differ :
    (solve wstate9 ⟨ActionType.FLAG, ⟨10, 10⟩⟩ [d9a, d9a]).map (fun s => s.probs ⟨0, 0⟩)
      = some (some 100)
    ∧ (solve wstate9 ⟨ActionType.FLAG, ⟨10, 10⟩⟩ [d9b, d9b]).map (fun s => s.probs ⟨0, 0⟩)
      = some (some 0) := by
  exact ⟨by decide, by decide⟩

/-- The completed run of the first stream. -/
def run9a : Minesweeper :=
  (solve wstate9 ⟨ActionType.FLAG, ⟨10, 10⟩⟩ [d9a, d9a]).getD wstate1

/-- The completed run of the second stream. -/
def run9b : Minesweeper :=
  (solve wstate9 ⟨ActionType.FLAG, ⟨10, 10⟩⟩ [d9b, d9b]).getD wstate1

/-- Witness for C9 (amended) at a concrete input: both runs of the
determinism scenario complete, and the theorem transports the flag
counter of one run to the other. -/
theorem solve_deterministic_modulo_probs_witness :
    solve wstate9 ⟨ActionType.FLAG, ⟨10, 10⟩⟩ [d9a, d9a] = some run9a
    ∧ solve wstate9 ⟨ActionType.FLAG, ⟨10, 10⟩⟩ [d9b, d9b] = some run9b
    ∧ run9a.n_flags = run9b.n_flags :=
  ⟨rfl, rfl,
    (solve_deterministic_modulo_probs wstate9 ⟨ActionType.FLAG, ⟨10, 10⟩⟩
      [d9a, d9a] [d9b, d9b] run9a run9b rfl rfl).2.2.2.1⟩

/-- C4 (amended), part one proved here: when the drain of the pending
action list reports game over, the propagation loop returns at once —
every action already pending was still applied during the drain, but no
constraint or pairwise inference step follows.  Part two: when the game
is not already lost, solve unconditionally continues from the loop result
into calc_prob, so the estimator still runs after an explosion. -/
theorem solveLoop_stops_after_explosion :
    (∀ (f : Nat) (st : Minesweeper) (acts : List Action) (cs vs : List Coord)
        (st1 : Minesweeper) (cs1 vs1 : List Coord),
      drain st acts cs vs false = some (st1, cs1, vs1, true) →
      solveLoop (f + 1) st acts cs vs = some st1)
  ∧ (∀ (st : Minesweeper) (a : Action) (r : List (List Coord)),
      st.lost = false →
      solve st a r = (solveLoop solveFuel st [a] [] []).bind (fun s => calc_prob s r)) := by
  constructor
  · intro f st acts cs vs st1 cs1 vs1 h
    cases acts with
    | nil =>
      simp only [drain] at h
      cases h
    | cons a rest =>
      simp only [solveLoop]
      rw [h]
      simp
  · intro st a r hl
    simp only [solve, hl]
    cases solveLoop solveFuel st [a] [] [] <;> simp

/-- The seven clicked cells of the explosion scenario. -/
def pocket4 : List Coord := [⟨0, 0⟩, ⟨0, 1⟩, ⟨0, 2⟩, ⟨1, 0⟩, ⟨2, 0⟩, ⟨2, 1⟩, ⟨1, 1⟩]

/-- The explosion scenario: a seven-cell clicked pocket in the corner,
one hidden mine at (2, 2), and a lying clue — the cell at (1, 1) shows 0
although the mine is adjacent, so the solver wrongly clears both of its
hidden neighbors (1, 2) and (2, 2).  Every other adjacency count is
honest. -/
def wstate4 : Minesweeper :=
  { grid := fun c =>
      { coord := c
        is_mine := decide (c = ⟨2, 2⟩)
        state := if c ∈ pocket4 then State.CLICKED else State.HIDDEN
        n_adj_mines :=
          if c = ⟨1, 1⟩ then 0
          else (nfilter (get_neighbors c) (fun n => decide (n = ⟨2, 2⟩))).length }
    probs := fun _ => none
    clicked_count := 7
    n_mines := N_MINES
    n_flags := 0
    lost := false }

/-- Filler cells for the 99-element draws of the explosion scenario: 97
hidden cells far from every clue. -/
def farCells : List Coord :=
  (grid_coords.filter (fun c => decide (10 ≤ c.x ∧ c.x ≤ 19 ∧ c.y ≤ 9))).take 97

/-- A draw that every constraint left after the explosion accepts. -/
def d4 : List Coord := ⟨3, 2⟩ :: ⟨2, 3⟩ :: farCells

/-- Counterexample for C4: starting from the lying-clue scenario, the
clear of the mine at (2, 2) explodes while the clear of (1, 2) is still
pending, yet the final state shows (1, 2) clicked — the pending action
was applied after the explosion — and a filled-in probability at (2, 3) —
the estimator also ran. -/
theorem solve_explosion_still_drains :
    (solve wstate4 ⟨ActionType.CLEAR, ⟨1, 1⟩⟩ [d4, d4]).map
      (fun s => (s.lost, (s.grid ⟨2, 2⟩).state, (s.grid ⟨1, 2⟩).state,
        s.clicked_count, s.probs ⟨2, 3⟩))
      = some (true, State.MISCLICKED, State.CLICKED, 8, some 100) := by
  decide

/-- The board left by draining the single exploding clear of the witness. -/
def st4x : Minesweeper :=
  ((drain wstate4 [⟨ActionType.CLEAR, ⟨2, 2⟩⟩] [] [] false).map Prod.fst).getD wstate1

/-- The constraint queue left by that drain. -/
def cs4x : List Coord :=
  ((drain wstate4 [⟨ActionType.CLEAR, ⟨2, 2⟩⟩] [] [] false).map (fun p => p.2.1)).getD []

/-- The variable queue left by that drain. -/
def vs4x : List Coord :=
  ((drain wstate4 [⟨ActionType.CLEAR, ⟨2, 2⟩⟩] [] [] false).map (fun p => p.2.2.1)).getD []

/-- Witness for C4 (amended) at a concrete input: clearing the mine of
the explosion scenario makes the drain report game over, and the loop
returns its state with no further inference. -/
theorem solveLoop_stops_after_explosion_witness :
    drain wstate4 [⟨ActionType.CLEAR, ⟨2, 2⟩⟩] [] [] false = some (st4x, cs4x, vs4x, true)
    ∧ solveLoop 1 wstate4 [⟨ActionType.CLEAR, ⟨2, 2⟩⟩] [] [] = some st4x :=
  ⟨rfl,
    solveLoop_stops_after_explosion.1 0 wstate4 [⟨ActionType.CLEAR, ⟨2, 2⟩⟩] [] []
      st4x cs4x vs4x rfl⟩

end MS
